import Mathlib

/-!
Verification of the minitemplate engine (`template.py`).

The development is a shallow embedding of the single-module template engine:
strings are `List Char`, Python's dynamic values are the inductive `PyObj`,
the data model is an association list with Python `dict` semantics, and
fallible operations return `Except PyErr`.  Functions keep the names of the
source functions (`tokenize`, `parse`, `eval_`, `find_next_else`,
`find_next_endif`, `eval_expression`, `eval_statement`, `eval_if_statement`,
`eval_for_statement`, `is_expr`, `is_stmt`, `unpack_len_one_list`,
`parse_expr`, `parse_stmt`).  Recursion that Python bounds only by its
recursion limit is modelled with an explicit fuel argument; exhausting the
fuel yields `PyErr.recursionError`.
-/

set_option maxHeartbeats 1000000

/-- Python whitespace characters used by `str.split()`. -/
def isPySpace (c : Char) : Bool :=
  c = ' ' || c = '\t' || c = '\n' || c = '\r' || c = '\x0b' || c = '\x0c'

/-- Helper for `pySplitWs`: accumulates the current word (reversed). -/
def pySplitAux : List Char → List Char → List (List Char)
  | [], cur => if cur.isEmpty then [] else [cur.reverse]
  | c :: rest, cur =>
    if isPySpace c then
      if cur.isEmpty then pySplitAux rest [] else cur.reverse :: pySplitAux rest []
    else pySplitAux rest (c :: cur)

/-- Python `str.split()` with no arguments: split on runs of whitespace,
dropping empty pieces. -/
def pySplitWs (s : List Char) : List (List Char) :=
  pySplitAux s []

/-- Python `str.lower()` (ASCII suffices for the engine's keywords). -/
def pyLower (s : List Char) : List Char :=
  s.map Char.toLower

/-- Python `" ".join(pieces)`. -/
def joinSpace : List (List Char) → List Char
  | [] => []
  | [x] => x
  | x :: rest => x ++ ' ' :: joinSpace rest

/-- `''.join` over plain strings. -/
def joinAll : List (List Char) → List Char
  | [] => []
  | x :: rest => x ++ joinAll rest

/-- Does `pat` occur as a contiguous substring of `s` (Python `pat in s`)? -/
def hasSub (pat s : List Char) : Bool :=
  if pat.isPrefixOf s then true
  else match s with
    | [] => false
    | _ :: rest => hasSub pat rest

/-- Numeric value of a digit string (the pieces fed to it are all-digit). -/
def digitsVal (s : List Char) : Nat :=
  s.foldl (fun n c => n * 10 + (c.toNat - '0'.toNat)) 0

/-- Decimal rendering of an integer, as Python `str(int)`. -/
def intRepr (n : Int) : List Char :=
  (toString n).toList

/-- A single-quote character, used when rendering Python `repr` of strings. -/
def quoteCh : Char := '\''

/-- Normalise one Python slice bound against a list of length `len`
(negative indices count from the end; out-of-range bounds clamp). -/
def pySliceIdx (len : Nat) (i : Int) : Nat :=
  if i < 0 then (Int.ofNat len + i).toNat else min i.toNat len

/-- Python slice `l[a:b]` (step 1), with Python's clamping rules. -/
def pySlice {α : Type} (l : List α) (a b : Int) : List α :=
  (l.take (pySliceIdx l.length b)).drop (pySliceIdx l.length a)

/-- Python errors surfaced by the engine. -/
inductive PyErr
  | valueError (msg : List Char)
  | typeError (msg : List Char)
  | keyError (key : List Char)
  | indexError
  | zeroDivisionError
  | recursionError
  | evalUnknown (msg : List Char)

/-- Python subscription `l[i]` on a list, with negative-index wrapping. -/
def pyListGet {α : Type} (l : List α) (i : Int) : Except PyErr α :=
  let j : Int := if i < 0 then i + l.length else i
  if j < 0 then .error .indexError
  else match l.get? j.toNat with
    | some x => .ok x
    | none => .error .indexError

/-- Python `list.index(x)` on a list of strings: index of the first
occurrence, `ValueError` when absent. -/
def listIndexAux (l : List (List Char)) (x : List Char) (acc : Nat) : Except PyErr Nat :=
  match l with
  | [] => .error (.valueError (quoteCh :: (x ++ quoteCh :: " is not in list".toList)))
  | t :: rest => if t = x then .ok acc else listIndexAux rest x (acc + 1)

/-- The dynamic value universe of the engine: Python ints, strings, bools,
floats, lists and tuples.  Parsed AST nodes and data-model values share this
type, exactly as they share Python's object space. -/
inductive PyObj
  | int (n : Int)
  | str (s : List Char)
  | bool (b : Bool)
  | float (f : Float)
  | list (xs : List PyObj)
  | tuple (xs : List PyObj)

/-- The data model: a string-keyed mutable mapping (spec section 3 fixes the
keys to variable names).  Modelled as an association list with `dict`
semantics: lookup and deletion touch the first matching key, insertion
replaces in place or appends. -/
def DataModel : Type := List (List Char × PyObj)

/-- `dict.get`: value of the first entry with the given key. -/
def dmGet? : DataModel → List Char → Option PyObj
  | [], _ => none
  | (k', v) :: rest, k => if k' = k then some v else dmGet? rest k

/-- `key in dict`. -/
def dmContains (m : DataModel) (k : List Char) : Bool :=
  (dmGet? m k).isSome

/-- `dict[key] = value`: replace the first matching entry, else append. -/
def dmSet : DataModel → List Char → PyObj → DataModel
  | [], k, v => [(k, v)]
  | (k', v') :: rest, k, v =>
    if k' = k then (k', v) :: rest else (k', v') :: dmSet rest k v

/-- `del dict[key]`: remove the first matching entry; `none` is Python's
`KeyError`. -/
def dmDel : DataModel → List Char → Option DataModel
  | [], _ => none
  | (k', v') :: rest, k =>
    if k' = k then some rest else (dmDel rest k).map (fun r => (k', v') :: r)

mutual
/-- Is a value usable as a `dict` key (Python hashability)? -/
def pyHashable : PyObj → Bool
  | .list _ => false
  | .tuple xs => pyHashableList xs
  | _ => true

def pyHashableList : List PyObj → Bool
  | [] => true
  | x :: rest => pyHashable x && pyHashableList rest
end

mutual
/-- Python `repr`. -/
def pyReprOf : PyObj → List Char
  | .int n => intRepr n
  | .str s => quoteCh :: (s ++ [quoteCh])
  | .bool b => if b then "True".toList else "False".toList
  | .float f => f.toString.toList
  | .list xs => '[' :: (pyReprItems xs ++ [']'])
  | .tuple [x] => '(' :: (pyReprOf x ++ [',', ')'])
  | .tuple xs => '(' :: (pyReprItems xs ++ [')'])

def pyReprItems : List PyObj → List Char
  | [] => []
  | [x] => pyReprOf x
  | x :: rest => pyReprOf x ++ ',' :: ' ' :: pyReprItems rest
end

/-- Python `str()`: identity on strings, `repr`-style elsewhere. -/
def pyStrOf : PyObj → List Char
  | .str s => s
  | x => pyReprOf x

/-- Iterating a Python value (`for elem in x`): lists and tuples yield their
elements, strings yield one-character strings, anything else raises. -/
def pyIter : PyObj → Except PyErr (List PyObj)
  | .list xs => .ok xs
  | .tuple xs => .ok xs
  | .str s => .ok (s.map fun c => .str [c])
  | _ => .error (.typeError "object is not iterable".toList)

/-- Python `len()`. -/
def pyLen : PyObj → Except PyErr Int
  | .str s => .ok s.length
  | .list xs => .ok xs.length
  | .tuple xs => .ok xs.length
  | _ => .error (.typeError "object has no len".toList)

/-- Python truthiness. -/
def pyTruthy : PyObj → Bool
  | .int n => n != 0
  | .bool b => b
  | .str s => !s.isEmpty
  | .list xs => !xs.isEmpty
  | .tuple xs => !xs.isEmpty
  | .float f => f != 0

/-- Python subscription `x[i]` for sequences. -/
def pyIndexObj : PyObj → Int → Except PyErr PyObj
  | .str s, i =>
    match pyListGet s i with
    | .ok c => .ok (.str [c])
    | .error e => .error e
  | .list xs, i => pyListGet xs i
  | .tuple xs, i => pyListGet xs i
  | _, _ => .error (.typeError "object is not subscriptable".toList)

/-- Numeric view of a value for int arithmetic (Python `bool` is an `int`). -/
def toNumQ : PyObj → Option Int
  | .int n => some n
  | .bool b => some (if b then 1 else 0)
  | _ => none

/-- Float view of a value (ints and bools coerce). -/
def toFloatQ : PyObj → Option Float
  | .int n => some (Float.ofInt n)
  | .bool b => some (if b then 1.0 else 0.0)
  | .float f => some f
  | _ => none

mutual
/-- Python `==` (total, never raises): numbers compare across int/bool/float,
sequences compare elementwise, other cross-type comparisons are `False`. -/
def pyEqB : PyObj → PyObj → Bool
  | .str a, .str b => a == b
  | .list a, .list b => pyEqList a b
  | .tuple a, .tuple b => pyEqList a b
  | x, y =>
    match toNumQ x, toNumQ y with
    | some a, some b => a == b
    | _, _ =>
      match toFloatQ x, toFloatQ y with
      | some a, some b => a == b
      | _, _ => false

def pyEqList : List PyObj → List PyObj → Bool
  | [], [] => true
  | x :: xs, y :: ys => pyEqB x y && pyEqList xs ys
  | _, _ => false
end

/-- Lexicographic `<` on strings. -/
def strLt : List Char → List Char → Bool
  | [], [] => false
  | [], _ :: _ => true
  | _ :: _, [] => false
  | a :: as, b :: bs => if a = b then strLt as bs else Nat.blt a.toNat b.toNat

/-- Python `x + y`. -/
def pyAdd : PyObj → PyObj → Except PyErr PyObj
  | .str a, .str b => .ok (.str (a ++ b))
  | .list a, .list b => .ok (.list (a ++ b))
  | .tuple a, .tuple b => .ok (.tuple (a ++ b))
  | x, y =>
    match toNumQ x, toNumQ y with
    | some a, some b => .ok (.int (a + b))
    | _, _ =>
      match toFloatQ x, toFloatQ y with
      | some a, some b => .ok (.float (a + b))
      | _, _ => .error (.typeError "unsupported operand type for +".toList)

/-- Python `x - y`. -/
def pySub : PyObj → PyObj → Except PyErr PyObj
  | x, y =>
    match toNumQ x, toNumQ y with
    | some a, some b => .ok (.int (a - b))
    | _, _ =>
      match toFloatQ x, toFloatQ y with
      | some a, some b => .ok (.float (a - b))
      | _, _ => .error (.typeError "unsupported operand type for -".toList)

/-- Sequence repetition `seq * n`. -/
def seqRepeat {α : Type} (l : List α) (n : Int) : List α :=
  (List.replicate n.toNat l).flatten

/-- Python `x * y`. -/
def pyMul : PyObj → PyObj → Except PyErr PyObj
  | .str a, y =>
    match toNumQ y with
    | some n => .ok (.str (seqRepeat a n))
    | none => .error (.typeError "unsupported operand type for *".toList)
  | .list a, y =>
    match toNumQ y with
    | some n => .ok (.list (seqRepeat a n))
    | none => .error (.typeError "unsupported operand type for *".toList)
  | x, .str b =>
    match toNumQ x with
    | some n => .ok (.str (seqRepeat b n))
    | none => .error (.typeError "unsupported operand type for *".toList)
  | x, .list b =>
    match toNumQ x with
    | some n => .ok (.list (seqRepeat b n))
    | none => .error (.typeError "unsupported operand type for *".toList)
  | x, y =>
    match toNumQ x, toNumQ y with
    | some a, some b => .ok (.int (a * b))
    | _, _ =>
      match toFloatQ x, toFloatQ y with
      | some a, some b => .ok (.float (a * b))
      | _, _ => .error (.typeError "unsupported operand type for *".toList)

/-- The source's first registration of `/`: true division `float(x)/y`. -/
def pyDivTrue : PyObj → PyObj → Except PyErr PyObj
  | x, y =>
    match toFloatQ x, toFloatQ y with
    | some a, some b => if b == 0 then .error .zeroDivisionError else .ok (.float (a / b))
    | _, _ => .error (.typeError "unsupported operand type for /".toList)

/-- The source's second registration of `/`: Python `x % y` on integers
(floored modulo, `ZeroDivisionError` on a zero divisor). -/
def pyMod : PyObj → PyObj → Except PyErr PyObj
  | x, y =>
    match toNumQ x, toNumQ y with
    | some a, some b => if b = 0 then .error .zeroDivisionError else .ok (.int (Int.fmod a b))
    | _, _ => .error (.typeError "unsupported operand type for the modulo operation".toList)

/-- Python `x < y`. -/
def pyLt : PyObj → PyObj → Except PyErr PyObj
  | .str a, .str b => .ok (.bool (strLt a b))
  | x, y =>
    match toNumQ x, toNumQ y with
    | some a, some b => .ok (.bool (a < b))
    | _, _ =>
      match toFloatQ x, toFloatQ y with
      | some a, some b => .ok (.bool (a < b))
      | _, _ => .error (.typeError "comparison not supported".toList)

/-- Python `x > y`. -/
def pyGt (x y : PyObj) : Except PyErr PyObj := pyLt y x

/-- Python `x <= y`. -/
def pyLe : PyObj → PyObj → Except PyErr PyObj
  | .str a, .str b => .ok (.bool (strLt a b || a == b))
  | x, y =>
    match toNumQ x, toNumQ y with
    | some a, some b => .ok (.bool (a ≤ b))
    | _, _ =>
      match toFloatQ x, toFloatQ y with
      | some a, some b => .ok (.bool (a ≤ b))
      | _, _ => .error (.typeError "comparison not supported".toList)

/-- Python `x >= y`. -/
def pyGe (x y : PyObj) : Except PyErr PyObj := pyLe y x

/-- Python `x == y` as a binary-operator implementation. -/
def pyEqOp (x y : PyObj) : Except PyErr PyObj := .ok (.bool (pyEqB x y))

/-- Python `x != y`. -/
def pyNeOp (x y : PyObj) : Except PyErr PyObj := .ok (.bool (!pyEqB x y))

/-- `math.pow`: both arguments coerced to float, result a float. -/
def pyPow : PyObj → PyObj → Except PyErr PyObj
  | x, y =>
    match toFloatQ x, toFloatQ y with
    | some a, some b => .ok (.float (Float.pow a b))
    | _, _ => .error (.typeError "must be real number".toList)

/-- Python membership `x in y`: substring for strings, elementwise equality
for sequences. -/
def pyIn : PyObj → PyObj → Except PyErr PyObj
  | x, .str b =>
    match x with
    | .str a => .ok (.bool (hasSub a b))
    | _ => .error (.typeError "requires string as left operand".toList)
  | x, .list b => .ok (.bool (b.any (fun e => pyEqB x e)))
  | x, .tuple b => .ok (.bool (b.any (fun e => pyEqB x e)))
  | _, _ => .error (.typeError "argument is not iterable".toList)

/-- Python negation `-x`. -/
def pyNeg : PyObj → Except PyErr PyObj
  | x =>
    match toNumQ x with
    | some a => .ok (.int (-a))
    | none =>
      match toFloatQ x with
      | some a => .ok (.float (-a))
      | none => .error (.typeError "bad operand type for unary -".toList)

/-- Operator implementations receive their positional arguments as a list, so
that calling a two-argument lambda with one argument raises `TypeError`
exactly as in Python. -/
def OpImpl : Type := List PyObj → Except PyErr PyObj

/-- Wrap a two-argument Python lambda. -/
def binArity (f : PyObj → PyObj → Except PyErr PyObj) : OpImpl
  | [x, y] => f x y
  | _ => .error (.typeError "missing required positional argument".toList)

/-- Wrap a one-argument Python lambda. -/
def unArity (f : PyObj → Except PyErr PyObj) : OpImpl
  | [x] => f x
  | _ => .error (.typeError "missing required positional argument".toList)

/-- `_GLOBAL_ENV['operators']['binary']`, in source order.  The `/` key is
written twice, exactly as in the source dict literal; `lookupLast` below
gives Python's duplicate-key semantics (the second entry wins). -/
def binaryOps : List (List Char × OpImpl) :=
  [ ("+".toList, binArity pyAdd)
  , ("-".toList, binArity pySub)
  , ("*".toList, binArity pyMul)
  , ("/".toList, binArity pyDivTrue)
  , ("/".toList, binArity pyMod)
  , (">".toList, binArity pyGt)
  , ("<".toList, binArity pyLt)
  , (">=".toList, binArity pyGe)
  , ("<=".toList, binArity pyLe)
  , ("==".toList, binArity pyEqOp)
  , ("!=".toList, binArity pyNeOp)
  , ("^".toList, binArity pyPow)
  , ("in".toList, binArity pyIn) ]

/-- `_GLOBAL_ENV['operators']['unary']`. -/
def unaryOps : List (List Char × OpImpl) :=
  [ ("-".toList, unArity pyNeg) ]

/-- Lookup in a dict literal written as an ordered key/value list: a later
duplicate key overwrites an earlier one. -/
def lookupLast {α : Type} : List (List Char × α) → List Char → Option α
  | [], _ => none
  | (k', v') :: rest, k =>
    match lookupLast rest k with
    | some r => some r
    | none => if k' = k then some v' else none

/-- `op in table` / `table[op]` for an operator table: non-string hashable
keys are simply absent, unhashable keys raise `TypeError`. -/
def opLookup (table : List (List Char × OpImpl)) (op : PyObj) :
    Except PyErr (Option OpImpl) :=
  if pyHashable op then
    match op with
    | .str s => .ok (lookupLast table s)
    | _ => .ok none
  else .error (.typeError "unhashable type".toList)

/-- The variable-substitution step of `eval_expression`: an operand that is a
string bound in the data model is replaced by its value; unhashable operands
make the `in` test raise. -/
def substOperand (dm : DataModel) (e : PyObj) : Except PyErr PyObj :=
  if pyHashable e then
    match e with
    | .str s =>
      match dmGet? dm s with
      | some v => .ok v
      | none => .ok e
    | _ => .ok e
  else .error (.typeError "unhashable type".toList)

/-- Substitution over all slots of an expression. -/
def substAll (dm : DataModel) : List PyObj → Except PyErr (List PyObj)
  | [] => .ok []
  | e :: rest =>
    match substOperand dm e with
    | .error er => .error er
    | .ok v =>
      match substAll dm rest with
      | .error er => .error er
      | .ok vs => .ok (v :: vs)

/-- `eval_expression(exp, data_model)` (template.py lines 300-338).  Note the
faithful reproduction of the unary path's lookup in the *binary* operator
table (line 335), and of the fall-through returning `exp[0]` for arities
other than 2 and 3. -/
def eval_expression (exp : PyObj) (dm : DataModel) : Except PyErr PyObj :=
  match pyIter exp with
  | .error e => .error e
  | .ok slots0 =>
    match substAll dm slots0 with
    | .error e => .error e
    | .ok slots =>
      match slots with
      | [lh, op, rh] =>
        match opLookup binaryOps op with
        | .error e => .error e
        | .ok none => .error (.valueError ("Unknown binary operator: ".toList ++ pyStrOf op))
        | .ok (some f) => f [lh, rh]
      | [op, rh] =>
        match opLookup unaryOps op with
        | .error e => .error e
        | .ok none => .error (.valueError ("Unknown unary operator: ".toList ++ pyStrOf op))
        | .ok (some _) =>
          match opLookup binaryOps op with
          | .error e => .error e
          | .ok none => .error (.keyError (pyStrOf op))
          | .ok (some f) => f [rh]
      | _ =>
        match slots.get? 0 with
        | some v => .ok v
        | none => .error .indexError

/-! ## Lexer (template.py lines 15-19 and 124-178) -/

/-- `EXPRESSION_START`. -/
def expressionStart : List Char := ['{', '{']

/-- `EXPRESSION_END`. -/
def expressionEnd : List Char := ['}', '}']

/-- `STATEMENT_START`. -/
def statementStart : List Char := ['{', '%']

/-- `STATEMENT_END`. -/
def statementEnd : List Char := ['%', '}']

/-- The literal token `"{% else %}"` that `parse_stmt` searches with
`list.index`. -/
def elseTok : List Char := statementStart ++ " else ".toList ++ statementEnd

/-- The literal token `"{% endif %}"`. -/
def endifTok : List Char := statementStart ++ " endif ".toList ++ statementEnd

/-- The literal token `"{% endfor %}"`. -/
def endforTok : List Char := statementStart ++ " endfor ".toList ++ statementEnd

/-- Lazy search for the two-character closer `[c, '}']`: position of its
first occurrence, failing at a newline (the regex `.` does not match
newlines) or at end of input. -/
def closerPos (c : Char) : List Char → Option Nat
  | [] => none
  | [_] => none
  | x :: y :: rest =>
    if x = c ∧ y = '}' then some 0
    else if x = '\n' then none
    else (closerPos c (y :: rest)).map (· + 1)

/-- Length of the `TOKEN_REGEX` match starting at this position, if any:
`{{.*?}}` or `{%.*?%}` with a non-greedy, newline-free interior. -/
def matchAt : List Char → Option Nat
  | a :: b :: rest =>
    if a = '{' ∧ b = '{' then (closerPos '}' rest).map (· + 4)
    else if a = '{' ∧ b = '%' then (closerPos '%' rest).map (· + 4)
    else none
  | _ => none

/-- `TOKEN_REGEX.split`: alternate the text between matches with the matches
themselves (empty text pieces included, exactly like `re.split`).  Every step
consumes at least one character, so the recursion is bounded by the length of
the input; the explicit bound keeps the definition structurally recursive
(`tokenize` always supplies `length + 1`, which is sufficient). -/
def regexSplitAux : Nat → List Char → List Char → List (List Char)
  | 0, s, acc => [acc.reverse ++ s]
  | bound + 1, s, acc =>
    match matchAt s with
    | some L => acc.reverse :: s.take L :: regexSplitAux bound (s.drop L) []
    | none =>
      match s with
      | [] => [acc.reverse]
      | c :: rest => regexSplitAux bound rest (c :: acc)

/-- `tokenize(template)` (template.py lines 124-178): regex split, then drop
all empty strings. -/
def tokenize (template : List Char) : List (List Char) :=
  if template.length = 0 then []
  else (regexSplitAux (template.length + 1) template []).filter (fun t => ¬ t.isEmpty)

/-! ## Marker classification and the nesting matchers
(template.py lines 48-121) -/

/-- `is_expr(token)`. -/
def is_expr (token : List Char) : Bool :=
  expressionStart.isPrefixOf token

/-- `is_stmt(token, type_)`: for a statement token with a requested type the
second whitespace-split word is compared case-insensitively; a marker with
fewer than two words raises `IndexError`. -/
def is_stmt (token : List Char) (ty : Option (List Char)) : Except PyErr Bool :=
  if statementStart.isPrefixOf token then
    match ty with
    | none => .ok true
    | some ty' =>
      match (pySplitWs token).get? 1 with
      | none => .error .indexError
      | some w => .ok (pyLower w == pyLower ty')
  else .ok false

/-- The scan of `find_next_else` (template.py lines 69-93) over the window
`tokens[index:]`, carrying the running position and `open_ifs`. -/
def fneAux : List (List Char) → Nat → Int → Except PyErr Int
  | [], _, _ => .ok (-1)
  | t :: rest, pos, d =>
    match is_stmt t (some "if".toList) with
    | .error e => .error e
    | .ok bIf =>
      let d1 := if bIf then d + 1 else d
      match is_stmt t (some "endif".toList) with
      | .error e => .error e
      | .ok bEnd =>
        let d2 := if bEnd then d1 - 1 else d1
        if d2 ≤ 0 then
          match is_stmt t (some "else".toList) with
          | .error e => .error e
          | .ok true => .ok (Int.ofNat pos)
          | .ok false => fneAux rest (pos + 1) d2
        else fneAux rest (pos + 1) d2

/-- `find_next_else(tokens, index)`. -/
def find_next_else (tokens : List (List Char)) (index : Nat) : Except PyErr Int :=
  fneAux (tokens.drop index) index 0

/-- The scan of `find_next_endif` (template.py lines 95-121): an `endif`
bringing `open_ifs` back to exactly zero is consumed (`continue`); the other
branches fall through to the `open_ifs <= 0` check. -/
def fnfAux : List (List Char) → Nat → Int → Except PyErr Int
  | [], _, _ => .ok (-1)
  | t :: rest, pos, d =>
    match is_stmt t (some "if".toList) with
    | .error e => .error e
    | .ok true =>
      let d1 := d + 1
      if d1 ≤ 0 then
        match is_stmt t (some "endif".toList) with
        | .error e => .error e
        | .ok true => .ok (Int.ofNat pos)
        | .ok false => fnfAux rest (pos + 1) d1
      else fnfAux rest (pos + 1) d1
    | .ok false =>
      match is_stmt t (some "endif".toList) with
      | .error e => .error e
      | .ok true =>
        let d1 := d - 1
        if d1 = 0 then fnfAux rest (pos + 1) d1
        else if d1 ≤ 0 then
          match is_stmt t (some "endif".toList) with
          | .error e => .error e
          | .ok true => .ok (Int.ofNat pos)
          | .ok false => fnfAux rest (pos + 1) d1
        else fnfAux rest (pos + 1) d1
      | .ok false =>
        if d ≤ 0 then
          match is_stmt t (some "endif".toList) with
          | .error e => .error e
          | .ok true => .ok (Int.ofNat pos)
          | .ok false => fnfAux rest (pos + 1) d
        else fnfAux rest (pos + 1) d

/-- `find_next_endif(tokens, index)`. -/
def find_next_endif (tokens : List (List Char)) (index : Nat) : Except PyErr Int :=
  fnfAux (tokens.drop index) index 0

/-! ## Parser (template.py lines 180-291) -/

/-- `make_int` inside `parse_expr`: an all-digit piece becomes an `int`. -/
def make_int (tok : List Char) : PyObj :=
  if tok.all Char.isDigit && !tok.isEmpty then .int (Int.ofNat (digitsVal tok))
  else .str tok

/-- `parse_expr(token, ...)`: whitespace-split the interior and build the
fixed-arity expression tuple. -/
def parse_expr (token : List Char) : PyObj :=
  .tuple ((pySplitWs token).map make_int)

/-- `unpack_len_one_list(l)`. -/
def unpack_len_one_list : PyObj → PyObj
  | .list [x] => x
  | .list [] => .str []
  | x => x

mutual
/-- `parse(tokens)` (template.py lines 180-291). -/
def parse : Nat → List (List Char) → Except PyErr (List PyObj)
  | 0, _ => .error .recursionError
  | f + 1, tokens =>
    if tokens.length = 0 then .ok []
    else parseLoop f tokens 0 []

/-- The `while index < len(tokens)` loop of `parse`. -/
def parseLoop : Nat → List (List Char) → Nat → List PyObj → Except PyErr (List PyObj)
  | 0, _, _, _ => .error .recursionError
  | f + 1, tokens, index, parsed =>
    match tokens.get? index with
    | none => .ok parsed
    | some token =>
      if is_expr token then
        parseLoop f tokens (index + 1) (parsed ++ [parse_expr (pySlice token 2 (-2))])
      else
        match is_stmt token none with
        | .error e => .error e
        | .ok true =>
          match parse_stmt f (pySlice token 2 (-2)) tokens index with
          | .error e => .error e
          | .ok (index', node) => parseLoop f tokens (index' + 1).toNat (parsed ++ [node])
        | .ok false => parseLoop f tokens (index + 1) (parsed ++ [.str token])

/-- `parse_stmt(token, tokens, index)` (template.py lines 248-273).  For an
`if`, the unused assignments `next_else_`/`next_endif_` still run
`tokens[index:].index(...)` and so still raise `ValueError` when the literal
`{% else %}` / `{% endif %}` token is absent. -/
def parse_stmt : Nat → List Char → List (List Char) → Nat → Except PyErr (Int × PyObj)
  | 0, _, _, _ => .error .recursionError
  | f + 1, token, tokens, index =>
    match pySplitWs token with
    | [] => .error .indexError
    | statement :: params =>
      if statement = "if".toList then
        match parse f [expressionStart ++ joinSpace params ++ expressionEnd] with
        | .error e => .error e
        | .ok condL =>
          let cond := unpack_len_one_list (.list condL)
          match listIndexAux (tokens.drop index) elseTok 0 with
          | .error e => .error e
          | .ok _ =>
            match find_next_else tokens (index + 1) with
            | .error e => .error e
            | .ok nextElse =>
              match parse f (pySlice tokens (Int.ofNat (index + 1)) nextElse) with
              | .error e => .error e
              | .ok conseqL =>
                let conseq := unpack_len_one_list (.list conseqL)
                match listIndexAux (tokens.drop index) endifTok 0 with
                | .error e => .error e
                | .ok _ =>
                  match find_next_endif tokens (index + 1) with
                  | .error e => .error e
                  | .ok nextEndif =>
                    match parse f (pySlice tokens (nextElse + 1) nextEndif) with
                    | .error e => .error e
                    | .ok altL =>
                      .ok (nextEndif,
                        .tuple [.str statement, cond, conseq,
                                unpack_len_one_list (.list altL)])
      else if statement = "for".toList then
        match listIndexAux (tokens.drop index) endforTok 0 with
        | .error e => .error e
        | .ok nextEndfor =>
          match parse f (pySlice tokens (Int.ofNat (index + 1)) (Int.ofNat (index + nextEndfor))) with
          | .error e => .error e
          | .ok conseqL =>
            .ok (Int.ofNat (index + nextEndfor),
              .tuple [.str statement, .list (params.map PyObj.str),
                      unpack_len_one_list (.list conseqL)])
      else
        .ok (Int.ofNat index, .tuple [.str statement, .tuple (params.map PyObj.str)])
end

/-! ## Evaluator (template.py lines 294-457)

Every function of the mutual block consumes one unit of fuel per call,
modelling Python's recursion limit; `0` fuel is `RecursionError`. -/

/-- The keys of `_GLOBAL_ENV['statements']` after all module-level
registrations: `len` (dict literal), then `if`, `for`, `extends`. -/
def statementNames : List (List Char) :=
  ["len".toList, "if".toList, "for".toList, "extends".toList]

/-- `is_parsed_token_a_statement(parsed_token)`: look at element 0 of the
tuple (an empty tuple raises `IndexError`, an unhashable head makes the
dict-membership test raise `TypeError`). -/
def isStatementHead : List PyObj → Except PyErr Bool
  | [] => .error .indexError
  | h :: _ =>
    if pyHashable h then
      match h with
      | .str s => .ok (statementNames.contains s)
      | _ => .ok false
    else .error (.typeError "unhashable type".toList)

/-- The substitution step of `eval_statement`: list elements are skipped by
the `type(elem) != list` guard, every other element is tested for membership
in the data model (raising on unhashable elements) and replaced by its bound
value when it is a bound string. -/
def substStmtElem (dm : DataModel) (e : PyObj) : Except PyErr PyObj :=
  match e with
  | .list _ => .ok e
  | _ =>
    if pyHashable e then
      match e with
      | .str s =>
        match dmGet? dm s with
        | some v => .ok v
        | none => .ok e
      | _ => .ok e
    else .error (.typeError "unhashable type".toList)

/-- Substitution over all elements of a statement tuple. -/
def substStmtAll (dm : DataModel) : List PyObj → Except PyErr (List PyObj)
  | [] => .ok []
  | e :: rest =>
    match substStmtElem dm e with
    | .error er => .error er
    | .ok v =>
      match substStmtAll dm rest with
      | .error er => .error er
      | .ok vs => .ok (v :: vs)

/-- `''.join(evaluated)`: every element must be a string. -/
def pyJoinStrs : List PyObj → Except PyErr (List Char)
  | [] => .ok []
  | .str s :: rest =>
    match pyJoinStrs rest with
    | .ok r => .ok (s ++ r)
    | .error e => .error e
  | _ :: _ => .error (.typeError "sequence item: expected str instance".toList)

/-- The message of the `for`-clause `ValueError` (template.py line 356). -/
def forClauseMsg (for_ : PyObj) : List Char :=
  "Unknown for clause: ".toList ++ pyStrOf for_ ++ [' ']

mutual
/-- `eval_(parsed_template, data_model)` (template.py lines 397-457):
iterate the argument, evaluate each element, join the results. -/
def eval_ : Nat → PyObj → DataModel → Except PyErr (List Char × DataModel)
  | 0, _, _ => .error .recursionError
  | f + 1, x, dm =>
    match pyIter x with
    | .error e => .error e
    | .ok elems =>
      match evalList f elems dm with
      | .error e => .error e
      | .ok (vals, dm') =>
        match pyJoinStrs vals with
        | .error e => .error e
        | .ok s => .ok (s, dm')

/-- The `for elem in parsed_template` loop of `eval_`, collecting the
evaluated elements before the final join. -/
def evalList : Nat → List PyObj → DataModel → Except PyErr (List PyObj × DataModel)
  | 0, _, _ => .error .recursionError
  | _ + 1, [], dm => .ok ([], dm)
  | f + 1, e :: rest, dm =>
    match evalElem f e dm with
    | .error er => .error er
    | .ok (v, dm1) =>
      match evalList f rest dm1 with
      | .error er => .error er
      | .ok (vs, dm2) => .ok (v :: vs, dm2)

/-- The per-element dispatch of `eval_` (template.py lines 442-452): nested
lists recurse, strings and ints pass through, tuples go to the statement or
expression evaluator, anything else is the unknown-type `Exception`. -/
def evalElem : Nat → PyObj → DataModel → Except PyErr (PyObj × DataModel)
  | 0, _, _ => .error .recursionError
  | f + 1, e, dm =>
    match e with
    | .list _ =>
      match eval_ f e dm with
      | .error er => .error er
      | .ok (s, dm') => .ok (.str s, dm')
    | .str _ => .ok (e, dm)
    | .int _ => .ok (e, dm)
    | .tuple xs =>
      match isStatementHead xs with
      | .error er => .error er
      | .ok true => eval_statement f xs dm
      | .ok false =>
        match eval_expression e dm with
        | .error er => .error er
        | .ok v => .ok (.str (pyStrOf v), dm)
    | _ => .error (.evalUnknown ("Cannot evaluate parsed token, unknown type: ".toList ++ pyStrOf e))

/-- `eval_statement(stmt, data_model)` (template.py lines 383-395):
substitute data-model values, look up the handler by the (substituted)
element 0, and call it with the remaining elements. -/
def eval_statement : Nat → List PyObj → DataModel → Except PyErr (PyObj × DataModel)
  | 0, _, _ => .error .recursionError
  | f + 1, xs, dm =>
    match substStmtAll dm xs with
    | .error er => .error er
    | .ok xs' =>
      match xs' with
      | [] => .error .indexError
      | h :: args =>
        match h with
        | .str name =>
          if name = "if".toList then eval_if_statement f args dm
          else if name = "for".toList then eval_for_statement f args dm
          else if name = "extends".toList then
            match args with
            | [] => .error .indexError
            | _ :: _ => .ok (.str [], dm)
          else if name = "len".toList then
            match args with
            | [a] =>
              match pyLen a with
              | .error er => .error er
              | .ok n => .ok (.int n, dm)
            | _ => .error (.typeError "len() takes exactly one argument".toList)
          else .error (.keyError (pyStrOf h))
        | .list _ => .error (.typeError "unhashable type".toList)
        | _ => .error (.keyError (pyStrOf h))

/-- `eval_if_statement` (template.py lines 340-349). -/
def eval_if_statement : Nat → List PyObj → DataModel → Except PyErr (PyObj × DataModel)
  | 0, _, _ => .error .recursionError
  | f + 1, params, dm =>
    match params with
    | cond :: conseq :: alt :: _ =>
      match eval_expression cond dm with
      | .error er => .error er
      | .ok c =>
        if pyTruthy c then
          match eval_ f conseq dm with
          | .error er => .error er
          | .ok (s, dm') => .ok (.str s, dm')
        else
          match eval_ f alt dm with
          | .error er => .error er
          | .ok (s, dm') => .ok (.str s, dm')
    | _ => .error .indexError

/-- `eval_for_statement` (template.py lines 353-372): validate the clause,
save any existing binding of the loop variable, run the body once per
element, then restore the binding or delete it (`del` raising `KeyError`
when the binding never existed). -/
def eval_for_statement : Nat → List PyObj → DataModel → Except PyErr (PyObj × DataModel)
  | 0, _, _ => .error .recursionError
  | f + 1, params, dm =>
    match params with
    | [] => .error .indexError
    | for_ :: rest =>
      match pyLen for_ with
      | .error er => .error er
      | .ok n =>
        if n ≠ 3 then .error (.valueError (forClauseMsg for_))
        else
          match pyIndexObj for_ 1 with
          | .error er => .error er
          | .ok mid =>
            if ¬ pyEqB mid (.str "in".toList) then .error (.valueError (forClauseMsg for_))
            else
              match rest with
              | [] => .error .indexError
              | loopBody :: _ =>
                match pyIndexObj for_ 0 with
                | .error er => .error er
                | .ok en =>
                  match en with
                  | .str elemName =>
                    match pyIndexObj for_ 2 with
                    | .error er => .error er
                    | .ok iv =>
                      match iv with
                      | .str iterName =>
                        match dmGet? dm iterName with
                        | none => .error (.keyError iterName)
                        | some iterObj =>
                          match pyIter iterObj with
                          | .error er => .error er
                          | .ok items =>
                            match evalForLoop f items loopBody elemName dm with
                            | .error er => .error er
                            | .ok (results, dm1) =>
                              match dmGet? dm elemName with
                              | some old =>
                                .ok (.str (joinAll results), dmSet dm1 elemName old)
                              | none =>
                                match dmDel dm1 elemName with
                                | some dm2 => .ok (.str (joinAll results), dm2)
                                | none => .error (.keyError elemName)
                      | _ => .error (.typeError "data model keys are strings".toList)
                  | _ => .error (.typeError "data model keys are strings".toList)

/-- The `for elem in data_model[for_[2]]` loop: bind the loop variable, run
the body, collect each rendered string. -/
def evalForLoop : Nat → List PyObj → PyObj → List Char → DataModel →
    Except PyErr (List (List Char) × DataModel)
  | 0, _, _, _, _ => .error .recursionError
  | _ + 1, [], _, _, dm => .ok ([], dm)
  | f + 1, item :: rest, body, x, dm =>
    match eval_ f body (dmSet dm x item) with
    | .error er => .error er
    | .ok (s, dm2) =>
      match evalForLoop f rest body x dm2 with
      | .error er => .error er
      | .ok (ss, dm3) => .ok (s :: ss, dm3)
end

/-- The full pipeline behind `Template.render` on a fresh template
(template.py lines 460-475): tokenize, parse, evaluate. -/
def render (f : Nat) (template : List Char) (dm : DataModel) :
    Except PyErr (List Char × DataModel) :=
  match parse f (tokenize template) with
  | .error e => .error e
  | .ok ast => eval_ f (.list ast) dm

/-! ## Claims C4, C5, C6: the operator table and `eval_expression` -/

/-- C4: for integer operands `x` and `y` with `y` nonzero, evaluating the
three-slot expression `(x, '/', y)` returns `x` modulo `y` (Python's floored
modulo), because the second registration of `/` (modulo) overwrites the
first (true division) in the binary-operator table. -/
theorem slash_operator_is_modulo (x y : Int) (dm : DataModel)
    (hdm : dmGet? dm "/".toList = none) (hy : y ≠ 0) :
    eval_expression (.tuple [.int x, .str "/".toList, .int y]) dm =
      .ok (.int (Int.fmod x y)) := by
  unfold eval_expression
  rw [pyIter]
  simp only [substAll, substOperand, pyHashable, hdm, if_true]
  simp [opLookup, pyHashable, binaryOps, lookupLast, binArity, pyMod, toNumQ, hy]

theorem slash_operator_is_modulo_witness :
    dmGet? [] "/".toList = none ∧ (3 : Int) ≠ 0 ∧
      eval_expression (.tuple [.int 7, .str "/".toList, .int 3]) [] =
        .ok (.int (Int.fmod 7 3)) :=
  ⟨rfl, by decide, slash_operator_is_modulo 7 3 [] rfl (by decide)⟩

/-- C5: evaluating the two-slot unary expression `('-', x)` does NOT return
the negation of `x`: the unary path of `eval_expression` passes the
membership test against the unary table but then fetches the implementation
from the *binary* table (template.py line 335), so the two-argument
subtraction lambda is called with a single argument and raises `TypeError`.
This theorem evaluates the code at the claim's failing input family. -/
theorem unary_minus_raises_type_error (x : Int) :
    eval_expression (.tuple [.str "-".toList, .int x]) [] =
      .error (.typeError "missing required positional argument".toList) := rfl

/-- C6 counterexample: `%` is not a key of the binary-operator table (the
table's modulo implementation sits under `/`), so evaluating `(7, '%', 3)`
raises the unknown-binary-operator `ValueError` instead of returning
`7 mod 3`, refuting the claim at this concrete input. -/
theorem percent_operator_rejected :
    eval_expression (.tuple [.int 7, .str "%".toList, .int 3]) [] =
      .error (.valueError "Unknown binary operator: %".toList) := rfl

/-- C6 (amended): every operator symbol in `+ - * / > < >= <= == != ^ in`
(the spec's list minus `%`) is a key of the binary-operator table, `%` is
not, and evaluating `(x, '%', y)` fails with the unknown-binary-operator
error for all integer operands. -/
theorem binary_operator_table_amended :
    (["+", "-", "*", "/", ">", "<", ">=", "<=", "==", "!=", "^", "in"].all
        (fun s => (lookupLast binaryOps s.toList).isSome)) = true
    ∧ lookupLast binaryOps "%".toList = none
    ∧ ∀ x y : Int, eval_expression (.tuple [.int x, .str "%".toList, .int y]) [] =
        .error (.valueError "Unknown binary operator: %".toList) :=
  ⟨rfl, rfl, fun _ _ => rfl⟩

/-! ## Claim C2: an `if` block with no `else` marker anywhere -/

/-- C2: parsing an `if` block that is closed by its `endif` but contains no
`else` marker at all does NOT succeed with an empty alternate branch: the
unused assignment `next_else_ = tokens[index:].index('{% else %}')`
(template.py line 254) raises `ValueError` before `find_next_else` ever
runs.  This theorem evaluates the code at the claim's failing input. -/
theorem parse_if_without_else_raises :
    parse 10 [statementStart ++ " if x ".toList ++ statementEnd,
              "y".toList, endifTok] =
      .error (.valueError (quoteCh :: (elseTok ++ quoteCh :: " is not in list".toList))) := rfl

/-! ## Claim C8: malformed `for` clauses are rejected at evaluation time -/

/-- C8 counterexample: the token sequence `{% for a within b %}{% endfor %}`
has a `for` remainder that is not of the shape `<name> in <name>`, yet
`parse` succeeds (returning the for-node with the malformed clause), refuting
the claim that the clause is rejected at parse time with a `ParseError`. -/
theorem parse_accepts_malformed_for :
    parse 10 [statementStart ++ " for a within b ".toList ++ statementEnd, endforTok] =
      .ok [.tuple [.str "for".toList,
                   .list [.str "a".toList, .str "within".toList, .str "b".toList],
                   .str []]] := rfl

/-- A statement marker is never taken for an expression token. -/
theorem is_expr_false_of_stmt {t : List Char} (h : statementStart.isPrefixOf t = true) :
    is_expr t = false := by
  match t with
  | [] => simp [statementStart, List.isPrefixOf] at h
  | [c] => simp [statementStart, List.isPrefixOf] at h
  | a :: b :: rest =>
    simp [statementStart, List.isPrefixOf] at h
    obtain ⟨ha, hb⟩ := h
    simp [is_expr, expressionStart, List.isPrefixOf, ← ha, ← hb]

/-- C8 (amended): every `for` marker whose remainder is not exactly
`<name> in <name>` — a wrong piece count or a wrong middle keyword — is
accepted by `parse` (the malformed pieces are stored verbatim in the for
node, provided a literal `{% endfor %}` token follows) and rejected only at
evaluation time, when `eval_for_statement` raises `ValueError` citing the
offending clause. -/
theorem malformed_for_rejected_at_eval (f : Nat) (dm : DataModel) (body : PyObj)
    (t : List Char) (ps : List (List Char))
    (hf : 4 ≤ f)
    (hstmt : statementStart.isPrefixOf t = true)
    (hsplit : pySplitWs (pySlice t 2 (-2)) = "for".toList :: ps)
    (hbad : ¬(ps.length = 3 ∧ ps.get? 1 = some "in".toList)) :
    parse f [t, endforTok] =
      .ok [.tuple [.str "for".toList, .list (ps.map PyObj.str), .str []]] ∧
    eval_for_statement f [.list (ps.map PyObj.str), body] dm =
      .error (.valueError (forClauseMsg (.list (ps.map PyObj.str)))) := by
  obtain ⟨g, rfl⟩ : ∃ g, f = g + 4 := ⟨f - 4, by omega⟩
  constructor
  · have hne : t ≠ endforTok := by
      rintro rfl
      rw [show pySlice endforTok 2 (-2) = " endfor ".toList from rfl] at hsplit
      rw [show pySplitWs " endfor ".toList = ["endfor".toList] from rfl] at hsplit
      injection hsplit with h1 _
      exact absurd h1 (by decide)
    have hexpr : is_expr t = false := is_expr_false_of_stmt hstmt
    have hstmtB : is_stmt t none = .ok true := by simp [is_stmt, hstmt]
    have hfor : ¬("for".toList = "if".toList) := by decide
    have hidx : listIndexAux [t, endforTok] endforTok 0 = .ok 1 := by
      simp [listIndexAux, hne]
    have hslice : pySlice [t, endforTok] (1 : Int) (1 : Int) = [] := by
      simp [pySlice, pySliceIdx]
    simp [parse, parseLoop, parse_stmt, hexpr, hstmtB, hsplit, hfor, hidx, hslice,
          unpack_len_one_list]
  · simp only [eval_for_statement]
    rw [show pyLen (.list (ps.map PyObj.str)) = .ok ((ps.map PyObj.str).length : Int) from rfl]
    by_cases hlen : ps.length = 3
    · obtain ⟨a, b, c, rfl⟩ : ∃ a b c, ps = [a, b, c] := by
        match ps, hlen with
        | [a, b, c], _ => exact ⟨a, b, c, rfl⟩
      have hb : b ≠ ['i', 'n'] := by
        intro he
        exact hbad ⟨rfl, by simp [he]⟩
      simp [List.length_map, pyIndexObj, pyListGet, pyEqB, hb]
    · have hlen2 : ((ps.length : Nat) : Int) ≠ 3 := by exact_mod_cast hlen
      simp [List.length_map, hlen2]

/-- The malformed `for` marker `{% for a within b %}` used as witness. -/
def forMarkerW : List Char := statementStart ++ " for a within b ".toList ++ statementEnd

/-- The split pieces of the witness marker's remainder. -/
def forPiecesW : List (List Char) := ["a".toList, "within".toList, "b".toList]

theorem malformed_for_rejected_at_eval_witness :
    4 ≤ 4 ∧
      statementStart.isPrefixOf forMarkerW = true ∧
      pySplitWs (pySlice forMarkerW 2 (-2)) = "for".toList :: forPiecesW ∧
      ¬(forPiecesW.length = 3 ∧ forPiecesW.get? 1 = some "in".toList) ∧
      (parse 4 [forMarkerW, endforTok] =
          .ok [.tuple [.str "for".toList, .list (forPiecesW.map PyObj.str), .str []]] ∧
        eval_for_statement 4 [.list (forPiecesW.map PyObj.str), .str []] [] =
          .error (.valueError (forClauseMsg (.list (forPiecesW.map PyObj.str))))) :=
  ⟨by decide, rfl, rfl, by decide,
    malformed_for_rejected_at_eval 4 [] (.str []) forMarkerW forPiecesW
      (by decide) rfl rfl (by decide)⟩

/-! ## Lexer lemmas: inputs without closers or without openers -/

theorem hasSub_cons_false {pat : List Char} {c : Char} {rest : List Char}
    (h : hasSub pat (c :: rest) = false) : hasSub pat rest = false := by
  unfold hasSub at h
  split at h
  · exact absurd h (by simp)
  · exact h

theorem isPrefixOf_eq_false {pat s : List Char} (h : hasSub pat s = false) :
    pat.isPrefixOf s = false := by
  unfold hasSub at h
  split at h
  next hc => simp at h
  next hc => simp only [Bool.not_eq_true] at hc; exact hc

theorem closerPos_none (c : Char) : ∀ (s : List Char),
    hasSub [c, '}'] s = false → closerPos c s = none
  | [], _ => rfl
  | [_], _ => rfl
  | x :: y :: rest, h => by
    have hpre := isPrefixOf_eq_false h
    have htail : hasSub [c, '}'] (y :: rest) = false := hasSub_cons_false h
    unfold closerPos
    have hxy : ¬(x = c ∧ y = '}') := by
      rintro ⟨rfl, rfl⟩
      simp [List.isPrefixOf] at hpre
    rw [if_neg hxy]
    by_cases hx : x = '\n'
    · rw [if_pos hx]
    · rw [if_neg hx, closerPos_none c (y :: rest) htail]
      rfl

theorem matchAt_cons_cons (a b : Char) (rest : List Char) :
    matchAt (a :: b :: rest) =
      if a = '{' ∧ b = '{' then (closerPos '}' rest).map (· + 4)
      else if a = '{' ∧ b = '%' then (closerPos '%' rest).map (· + 4)
      else none := rfl

theorem matchAt_none_noclosers {s : List Char}
    (h1 : hasSub expressionEnd s = false) (h2 : hasSub statementEnd s = false) :
    matchAt s = none := by
  match s with
  | [] => rfl
  | [_] => rfl
  | a :: b :: rest =>
    have he : hasSub ['}', '}'] rest = false :=
      hasSub_cons_false (hasSub_cons_false h1)
    have hp : hasSub ['%', '}'] rest = false :=
      hasSub_cons_false (hasSub_cons_false h2)
    rw [matchAt_cons_cons]
    by_cases hab : a = '{' ∧ b = '{'
    · rw [if_pos hab, closerPos_none '}' rest he]
      rfl
    · rw [if_neg hab]
      by_cases hab2 : a = '{' ∧ b = '%'
      · rw [if_pos hab2, closerPos_none '%' rest hp]
        rfl
      · rw [if_neg hab2]

theorem matchAt_none_noopeners {s : List Char}
    (h1 : hasSub expressionStart s = false) (h2 : hasSub statementStart s = false) :
    matchAt s = none := by
  match s with
  | [] => rfl
  | [_] => rfl
  | a :: b :: rest =>
    have hp1 := isPrefixOf_eq_false h1
    have hp2 := isPrefixOf_eq_false h2
    rw [matchAt_cons_cons]
    have hab : ¬(a = '{' ∧ b = '{') := by
      rintro ⟨rfl, rfl⟩
      simp [expressionStart, List.isPrefixOf] at hp1
    have hab2 : ¬(a = '{' ∧ b = '%') := by
      rintro ⟨rfl, rfl⟩
      simp [statementStart, List.isPrefixOf] at hp2
    rw [if_neg hab, if_neg hab2]

/-- When no suffix of the input starts a regex match, the split returns the
single remaining piece. -/
theorem regexSplitAux_nomatch (P : List Char → Prop)
    (htail : ∀ c rest, P (c :: rest) → P rest)
    (hm : ∀ t, P t → matchAt t = none) :
    ∀ (s : List Char) (bound : Nat) (acc : List Char), s.length < bound → P s →
      regexSplitAux bound s acc = [acc.reverse ++ s] := by
  intro s
  induction s with
  | nil =>
    intro bound acc hb hP
    obtain ⟨g, rfl⟩ : ∃ g, bound = g + 1 := ⟨bound - 1, by omega⟩
    simp [regexSplitAux, show matchAt [] = none from rfl]
  | cons c rest ih =>
    intro bound acc hb hP
    obtain ⟨g, rfl⟩ : ∃ g, bound = g + 1 := ⟨bound - 1, by omega⟩
    rw [regexSplitAux, hm _ hP]
    rw [ih g (c :: acc) (by simpa using hb) (htail c rest hP)]
    simp

/-- `tokenize` on a nonempty input in which the regex never matches: the
whole input survives as a single text token. -/
theorem tokenize_eq_single (P : List Char → Prop)
    (htail : ∀ c rest, P (c :: rest) → P rest)
    (hm : ∀ t, P t → matchAt t = none)
    (s : List Char) (hne : s ≠ []) (hP : P s) : tokenize s = [s] := by
  unfold tokenize
  rw [if_neg (by simpa using hne)]
  rw [regexSplitAux_nomatch P htail hm s (s.length + 1) [] (by omega) hP]
  simp [hne]

/-! ## Claim C7: unterminated delimiters do not abort tokenization -/

/-- C7 counterexample: the input `{{ name` has an opening expression
delimiter and no closer, yet `tokenize` returns a token sequence (the text
unchanged, as a single text token) — there is no `LexError` anywhere in the
module — refuting the claim at this concrete input. -/
theorem tokenize_unterminated_no_error :
    tokenize (expressionStart ++ " name".toList) =
      [expressionStart ++ " name".toList] := rfl

/-- C7 (amended): on any input that contains an opening delimiter but no
closing delimiter of either kind, `tokenize` does not fail: it returns the
whole input unchanged as a single text token (the engine has no `LexError`;
an unterminated opener is simply never matched by the token regex). -/
theorem tokenize_unterminated_literal (s : List Char)
    (hopen : hasSub expressionStart s = true ∨ hasSub statementStart s = true)
    (h1 : hasSub expressionEnd s = false) (h2 : hasSub statementEnd s = false) :
    tokenize s = [s] := by
  have hne : s ≠ [] := by
    rintro rfl
    rcases hopen with h | h <;>
      simp [hasSub, List.isPrefixOf, expressionStart, statementStart] at h
  exact tokenize_eq_single
    (fun t => hasSub expressionEnd t = false ∧ hasSub statementEnd t = false)
    (fun c rest hP => ⟨hasSub_cons_false hP.1, hasSub_cons_false hP.2⟩)
    (fun t hP => matchAt_none_noclosers hP.1 hP.2)
    s hne ⟨h1, h2⟩

theorem tokenize_unterminated_literal_witness :
    (hasSub expressionStart (statementStart ++ " if x".toList) = true ∨
       hasSub statementStart (statementStart ++ " if x".toList) = true) ∧
      hasSub expressionEnd (statementStart ++ " if x".toList) = false ∧
      hasSub statementEnd (statementStart ++ " if x".toList) = false ∧
      tokenize (statementStart ++ " if x".toList) = [statementStart ++ " if x".toList] :=
  ⟨Or.inr rfl, rfl, rfl,
    tokenize_unterminated_literal (statementStart ++ " if x".toList) (Or.inr rfl) rfl rfl⟩

/-! ## Data-model lemmas -/

theorem dmSet_dmSet (m : DataModel) (k : List Char) (v w : PyObj) :
    dmSet (dmSet m k v) k w = dmSet m k w := by
  induction m with
  | nil => simp [dmSet]
  | cons p rest ih =>
    obtain ⟨k', v'⟩ := p
    by_cases hk : k' = k
    · simp [dmSet, hk]
    · simp [dmSet, hk, ih]

theorem dmSet_get_self {m : DataModel} {k : List Char} {v : PyObj}
    (h : dmGet? m k = some v) : dmSet m k v = m := by
  induction m with
  | nil => simp [dmGet?] at h
  | cons p rest ih =>
    obtain ⟨k', v'⟩ := p
    by_cases hk : k' = k
    · simp [dmGet?, hk] at h
      simp [dmSet, hk, h]
    · simp [dmGet?, hk] at h
      simp [dmSet, hk, ih h]

theorem dmDel_none_of_absent {m : DataModel} {k : List Char}
    (h : dmGet? m k = none) : dmDel m k = none := by
  induction m with
  | nil => rfl
  | cons p rest ih =>
    obtain ⟨k', v'⟩ := p
    by_cases hk : k' = k
    · simp [dmGet?, hk] at h
    · simp [dmGet?, hk] at h
      simp [dmDel, hk, ih h]

theorem dmDel_dmSet_absent {m : DataModel} {k : List Char} (v : PyObj)
    (h : dmGet? m k = none) : dmDel (dmSet m k v) k = some m := by
  induction m with
  | nil => simp [dmSet, dmDel]
  | cons p rest ih =>
    obtain ⟨k', v'⟩ := p
    by_cases hk : k' = k
    · simp [dmGet?, hk] at h
    · simp [dmGet?, hk] at h
      simp [dmSet, dmDel, hk, ih h]

/-! ## Purity: a successful evaluation restores the data model exactly

The only mutation in the evaluator is the `for` handler's bind/restore
protocol; on success it leaves the mapping it was given unchanged. -/

theorem purity : ∀ f : Nat,
    (∀ x dm r dm', eval_ f x dm = .ok (r, dm') → dm' = dm) ∧
    (∀ es dm r dm', evalList f es dm = .ok (r, dm') → dm' = dm) ∧
    (∀ e dm r dm', evalElem f e dm = .ok (r, dm') → dm' = dm) ∧
    (∀ xs dm r dm', eval_statement f xs dm = .ok (r, dm') → dm' = dm) ∧
    (∀ ps dm r dm', eval_if_statement f ps dm = .ok (r, dm') → dm' = dm) ∧
    (∀ ps dm r dm', eval_for_statement f ps dm = .ok (r, dm') → dm' = dm) ∧
    (∀ items body x dm r dm', evalForLoop f items body x dm = .ok (r, dm') →
       dm' = dm ∨ ∃ v, dm' = dmSet dm x v) := by
  intro f
  induction f with
  | zero =>
    refine ⟨?_, ?_, ?_, ?_, ?_, ?_, ?_⟩
    · intro x dm r dm' h; exact Except.noConfusion h
    · intro es dm r dm' h; exact Except.noConfusion h
    · intro e dm r dm' h; exact Except.noConfusion h
    · intro xs dm r dm' h; exact Except.noConfusion h
    · intro ps dm r dm' h; exact Except.noConfusion h
    · intro ps dm r dm' h; exact Except.noConfusion h
    · intro items body x dm r dm' h; exact Except.noConfusion h
  | succ f ih =>
    obtain ⟨ihE, ihL, ihEl, ihS, ihIf, ihF, ihLp⟩ := ih
    refine ⟨?_, ?_, ?_, ?_, ?_, ?_, ?_⟩
    · -- eval_
      intro x dm r dm' h
      simp only [eval_] at h
      repeat' split at h
      all_goals try exact Except.noConfusion h
      injection h with h1
      injection h1 with _ h2
      rw [← h2]
      exact ihL _ _ _ _ (by assumption)
    · -- evalList
      intro es dm r dm' h
      cases es with
      | nil =>
        simp only [evalList] at h
        injection h with h1
        injection h1 with _ h2
        exact h2.symm
      | cons e rest =>
        simp only [evalList] at h
        repeat' split at h
        all_goals try exact Except.noConfusion h
        injection h with h1
        injection h1 with _ h2
        have e1 := ihL _ _ _ _ (by assumption)
        have e2 := ihEl _ _ _ _ (by assumption)
        rw [← h2, e1, e2]
    · -- evalElem
      intro e dm r dm' h
      cases e with
      | list xs =>
        simp only [evalElem] at h
        repeat' split at h
        all_goals try exact Except.noConfusion h
        injection h with h1
        injection h1 with _ h2
        rw [← h2]
        exact ihE _ _ _ _ (by assumption)
      | str s =>
        simp only [evalElem] at h
        injection h with h1
        injection h1 with _ h2
        exact h2.symm
      | int n =>
        simp only [evalElem] at h
        injection h with h1
        injection h1 with _ h2
        exact h2.symm
      | tuple xs =>
        simp only [evalElem] at h
        repeat' split at h
        all_goals try exact Except.noConfusion h
        all_goals try (injection h with h1; injection h1 with _ h2; exact h2.symm)
        exact ihS _ _ _ _ h
      | bool b =>
        simp only [evalElem] at h
        exact Except.noConfusion h
      | float fl =>
        simp only [evalElem] at h
        exact Except.noConfusion h
    · -- eval_statement
      intro xs dm r dm' h
      simp only [eval_statement] at h
      repeat' split at h
      all_goals try exact Except.noConfusion h
      all_goals try (injection h with h1; injection h1 with _ h2; exact h2.symm)
      all_goals first
        | exact ihIf _ _ _ _ h
        | exact ihF _ _ _ _ h
    · -- eval_if_statement
      intro ps dm r dm' h
      simp only [eval_if_statement] at h
      repeat' split at h
      all_goals try exact Except.noConfusion h
      all_goals
        (injection h with h1
         injection h1 with _ h2
         rw [← h2]
         exact ihE _ _ _ _ (by assumption))
    · -- eval_for_statement
      intro ps dm r dm' h
      simp only [eval_for_statement] at h
      repeat' split at h
      all_goals try exact Except.noConfusion h
      · -- loop variable previously bound: the final dmSet restores it
        injection h with h1
        injection h1 with _ h2
        rw [← h2]
        rcases ihLp _ _ _ _ _ _ (by assumption) with hdm1 | ⟨v, hdm1⟩
        · rw [hdm1]
          exact dmSet_get_self (by assumption)
        · rw [hdm1, dmSet_dmSet]
          exact dmSet_get_self (by assumption)
      · -- loop variable previously unbound: the final del removes it
        injection h with h1
        injection h1 with _ h2
        rw [← h2]
        rcases ihLp _ _ _ _ _ _ (by assumption) with hdm1 | ⟨v, hdm1⟩
        · -- the loop ran zero iterations: del raises, contradiction
          rename_i hdel _
          rw [hdm1, dmDel_none_of_absent (by assumption)] at hdel
          exact Option.noConfusion hdel
        · rename_i hdel _
          rw [hdm1, dmDel_dmSet_absent v (by assumption)] at hdel
          injection hdel with hdel1
          exact hdel1.symm
    · -- evalForLoop
      intro items body x dm r dm' h
      cases items with
      | nil =>
        simp only [evalForLoop] at h
        injection h with h1
        injection h1 with _ h2
        exact Or.inl h2.symm
      | cons item rest =>
        simp only [evalForLoop] at h
        repeat' split at h
        all_goals try exact Except.noConfusion h
        injection h with h1
        injection h1 with _ h2
        rcases ihLp _ _ _ _ _ _ (by assumption) with hdm3 | ⟨v, hdm3⟩
        · refine Or.inr ⟨item, ?_⟩
          rw [← h2, hdm3]
          exact ihE _ _ _ _ (by assumption)
        · refine Or.inr ⟨v, ?_⟩
          have e1 := ihE _ _ _ _ (by assumption)
          rw [← h2, hdm3, e1, dmSet_dmSet]

/-! ## Claim C3: loop-scope restoration -/

/-- C3: evaluating a `for` node over loop variable `x` restores the data
model's binding of `x`: when `x` was bound to `v` beforehand it is bound to
`v` afterwards, and when `x` was unbound beforehand it is unbound afterwards
(whenever evaluation completes successfully).  This follows from the
stronger purity property: a successful `eval_for_statement` returns the data
model unchanged. -/
theorem eval_for_scope_restoration (f : Nat) (x xs : List Char) (body : PyObj)
    (dm dm' : DataModel) (r : PyObj)
    (h : eval_for_statement f
          [.list [.str x, .str "in".toList, .str xs], body] dm = .ok (r, dm')) :
    (∀ v, dmGet? dm x = some v → dmGet? dm' x = some v) ∧
    (dmGet? dm x = none → dmGet? dm' x = none) := by
  have hp : dm' = dm := ((purity f).2.2.2.2.2.1) _ _ _ _ h
  subst hp
  exact ⟨fun _ hv => hv, fun hn => hn⟩

/-- Concrete data model for the scope-restoration witness. -/
def scopeDm : DataModel :=
  [("i".toList, .int 1), ("l".toList, .list [.int 2, .int 3])]

theorem eval_for_scope_restoration_witness :
    (∀ v, dmGet? scopeDm "i".toList = some v → dmGet? scopeDm "i".toList = some v) ∧
    (dmGet? scopeDm "i".toList = none → dmGet? scopeDm "i".toList = none) :=
  eval_for_scope_restoration 10 "i".toList "l".toList (.str "a".toList)
    scopeDm scopeDm (.str "aa".toList) rfl

/-! ## Claim C10: unbound loop variable over an empty iterable -/

/-- C10: when the loop variable is not bound in the data model and the
iterable variable is bound to an empty sequence, evaluating the `for` node
raises `KeyError` (the `del` of the never-created loop-variable binding,
template.py line 370) instead of returning the empty string. -/
theorem eval_for_empty_unbound_keyerror (f : Nat) (x xs : List Char) (body : PyObj)
    (dm : DataModel) (hf : 2 ≤ f)
    (hx : dmGet? dm x = none)
    (hxs : dmGet? dm xs = some (.list [])) :
    eval_for_statement f [.list [.str x, .str "in".toList, .str xs], body] dm =
      .error (.keyError x) := by
  obtain ⟨g, rfl⟩ : ∃ g, f = g + 2 := ⟨f - 2, by omega⟩
  simp [eval_for_statement, pyLen, pyIndexObj, pyListGet, pyEqB, pyIter,
        evalForLoop, hxs, hx, dmDel_none_of_absent hx]

theorem eval_for_empty_unbound_keyerror_witness :
    2 ≤ 2 ∧
      dmGet? [("l".toList, PyObj.list [])] "i".toList = none ∧
      dmGet? [("l".toList, PyObj.list [])] "l".toList = some (.list []) ∧
      eval_for_statement 2
          [.list [.str "i".toList, .str "in".toList, .str "l".toList], .str []]
          [("l".toList, PyObj.list [])] =
        .error (.keyError "i".toList) :=
  ⟨by decide, rfl, rfl,
    eval_for_empty_unbound_keyerror 2 "i".toList "l".toList (.str [])
      [("l".toList, PyObj.list [])] (by decide) rfl rfl⟩

/-! ## Claim C9: round-trip identity for delimiter-free templates -/

/-- C9: a template containing none of `{{`, `}}`, `{%`, `%}` renders to
itself through the full pipeline (tokenize, parse, eval) for any data model
(which is also returned unchanged). -/
theorem render_no_delimiters_identity (f : Nat) (s : List Char) (dm : DataModel)
    (hf : 4 ≤ f)
    (h1 : hasSub expressionStart s = false) (h2 : hasSub statementStart s = false)
    (h3 : hasSub expressionEnd s = false) (h4 : hasSub statementEnd s = false) :
    render f s dm = .ok (s, dm) := by
  obtain ⟨g, rfl⟩ : ∃ g, f = g + 4 := ⟨f - 4, by omega⟩
  by_cases hs : s = []
  · subst hs
    rfl
  · have htok : tokenize s = [s] :=
      tokenize_eq_single
        (fun t => hasSub expressionStart t = false ∧ hasSub statementStart t = false)
        (fun c rest hP => ⟨hasSub_cons_false hP.1, hasSub_cons_false hP.2⟩)
        (fun t hP => matchAt_none_noopeners hP.1 hP.2)
        s hs ⟨h1, h2⟩
    have hexpr : is_expr s = false := by
      unfold is_expr
      exact isPrefixOf_eq_false h1
    have hstmtB : is_stmt s none = .ok false := by
      simp [is_stmt, isPrefixOf_eq_false h2]
    have hparse : parse (g + 3) [s] = .ok [.str s] := by
      simp [parse, parseLoop, hexpr, hstmtB]
    unfold render
    rw [htok, show g + 4 = (g + 3) + 1 from rfl]
    rw [show parse ((g + 3) + 1) [s] = .ok [.str s] from by
      simp [parse, parseLoop, hexpr, hstmtB]]
    simp [eval_, pyIter, evalList, evalElem, pyJoinStrs]

theorem render_no_delimiters_identity_witness :
    4 ≤ 4 ∧
      hasSub expressionStart "hello world".toList = false ∧
      hasSub statementStart "hello world".toList = false ∧
      hasSub expressionEnd "hello world".toList = false ∧
      hasSub statementEnd "hello world".toList = false ∧
      render 4 "hello world".toList [("x".toList, PyObj.int 1)] =
        .ok ("hello world".toList, [("x".toList, PyObj.int 1)]) :=
  ⟨by decide, rfl, rfl, rfl, rfl,
    render_no_delimiters_identity 4 "hello world".toList [("x".toList, PyObj.int 1)]
      (by decide) rfl rfl rfl rfl⟩

/-! ## Claim C1: the nesting-resolution matchers

The scans of `find_next_else` / `find_next_endif` only look at a token
through `is_stmt`; we classify tokens into four kinds and prove the scan
correct over arbitrarily nested balanced windows. -/

/-- Marker classification of a token, as seen by the matchers. -/
inductive TKind
  | kIf
  | kElse
  | kEndif
  | kOther
deriving DecidableEq

/-- Keyword classification of an (already lowercased) marker keyword. -/
def kwKind (u : List Char) : TKind :=
  if u = ['i', 'f'] then .kIf
  else if u = ['e', 'l', 's', 'e'] then .kElse
  else if u = ['e', 'n', 'd', 'i', 'f'] then .kEndif
  else .kOther

/-- A token on which `is_stmt(token, type_)` cannot raise: either not a
statement marker at all, or a marker with at least two words. -/
def wfTok (t : List Char) : Bool :=
  !(statementStart.isPrefixOf t) || ((pySplitWs t).get? 1).isSome

/-- The marker kind of a token. -/
def tokKind (t : List Char) : TKind :=
  if statementStart.isPrefixOf t then
    match (pySplitWs t).get? 1 with
    | some w => kwKind (pyLower w)
    | none => .kOther
  else .kOther

theorem kwKind_if (u : List Char) :
    (u == ['i', 'f']) = decide (kwKind u = .kIf) := by
  unfold kwKind
  by_cases h1 : u = ['i', 'f']
  · simp [h1]
  · by_cases h2 : u = ['e', 'l', 's', 'e']
    · simp [h1, h2]
    · by_cases h3 : u = ['e', 'n', 'd', 'i', 'f']
      · simp [h1, h2, h3]
      · simp [h1, h2, h3]

theorem kwKind_else (u : List Char) :
    (u == ['e', 'l', 's', 'e']) = decide (kwKind u = .kElse) := by
  unfold kwKind
  by_cases h1 : u = ['i', 'f']
  · simp [h1]
  · by_cases h2 : u = ['e', 'l', 's', 'e']
    · simp [h1, h2]
    · by_cases h3 : u = ['e', 'n', 'd', 'i', 'f']
      · simp [h1, h2, h3]
      · simp [h1, h2, h3]

theorem kwKind_endif (u : List Char) :
    (u == ['e', 'n', 'd', 'i', 'f']) = decide (kwKind u = .kEndif) := by
  unfold kwKind
  by_cases h1 : u = ['i', 'f']
  · simp [h1]
  · by_cases h2 : u = ['e', 'l', 's', 'e']
    · simp [h1, h2]
    · by_cases h3 : u = ['e', 'n', 'd', 'i', 'f']
      · simp [h1, h2, h3]
      · simp [h1, h2, h3]

theorem is_stmt_eq_kind {t : List Char} (hw : wfTok t = true) (kw : List Char) (k : TKind)
    (hk : k ≠ .kOther)
    (hkw : ∀ w : List Char, (pyLower w == pyLower kw) = decide (kwKind (pyLower w) = k)) :
    is_stmt t (some kw) = .ok (decide (tokKind t = k)) := by
  unfold is_stmt tokKind
  by_cases hp : statementStart.isPrefixOf t = true
  · rw [if_pos hp, if_pos hp]
    unfold wfTok at hw
    rw [hp] at hw
    simp only [Bool.not_true, Bool.false_or] at hw
    cases hget : (pySplitWs t).get? 1 with
    | none => rw [hget] at hw; simp at hw
    | some w => exact congrArg Except.ok (hkw w)
  · rw [if_neg hp, if_neg hp]
    have hko : ¬(TKind.kOther = k) := fun he => hk he.symm
    simp [hko]

/-- Step lemmas for the `find_next_else` scan, one per token kind. -/
theorem fneAux_cons_other {t : List Char} (hw : wfTok t = true)
    (hk : tokKind t = .kOther) (rest : List (List Char)) (pos : Nat) (d : Int) :
    fneAux (t :: rest) pos d = fneAux rest (pos + 1) d := by
  rw [fneAux]
  rw [is_stmt_eq_kind hw "if".toList .kIf (by decide) (fun w => kwKind_if (pyLower w)),
      is_stmt_eq_kind hw "endif".toList .kEndif (by decide) (fun w => kwKind_endif (pyLower w)),
      is_stmt_eq_kind hw "else".toList .kElse (by decide) (fun w => kwKind_else (pyLower w))]
  by_cases hd : d ≤ 0
  · simp [hk, hd]
  · simp [hk, hd]

theorem fneAux_cons_if {t : List Char} (hw : wfTok t = true)
    (hk : tokKind t = .kIf) (rest : List (List Char)) (pos : Nat) {d : Int}
    (hd : 0 ≤ d) :
    fneAux (t :: rest) pos d = fneAux rest (pos + 1) (d + 1) := by
  rw [fneAux]
  rw [is_stmt_eq_kind hw "if".toList .kIf (by decide) (fun w => kwKind_if (pyLower w)),
      is_stmt_eq_kind hw "endif".toList .kEndif (by decide) (fun w => kwKind_endif (pyLower w)),
      is_stmt_eq_kind hw "else".toList .kElse (by decide) (fun w => kwKind_else (pyLower w))]
  have hno : ¬(d + 1 ≤ 0) := by omega
  simp [hk, hno]

theorem fneAux_cons_endif {t : List Char} (hw : wfTok t = true)
    (hk : tokKind t = .kEndif) (rest : List (List Char)) (pos : Nat) (d : Int) :
    fneAux (t :: rest) pos d = fneAux rest (pos + 1) (d - 1) := by
  rw [fneAux]
  rw [is_stmt_eq_kind hw "if".toList .kIf (by decide) (fun w => kwKind_if (pyLower w)),
      is_stmt_eq_kind hw "endif".toList .kEndif (by decide) (fun w => kwKind_endif (pyLower w)),
      is_stmt_eq_kind hw "else".toList .kElse (by decide) (fun w => kwKind_else (pyLower w))]
  by_cases hd : d - 1 ≤ 0
  · simp [hk, hd]
  · simp [hk, hd]

theorem fneAux_cons_else_pos {t : List Char} (hw : wfTok t = true)
    (hk : tokKind t = .kElse) (rest : List (List Char)) (pos : Nat) {d : Int}
    (hd : 1 ≤ d) :
    fneAux (t :: rest) pos d = fneAux rest (pos + 1) d := by
  rw [fneAux]
  rw [is_stmt_eq_kind hw "if".toList .kIf (by decide) (fun w => kwKind_if (pyLower w)),
      is_stmt_eq_kind hw "endif".toList .kEndif (by decide) (fun w => kwKind_endif (pyLower w)),
      is_stmt_eq_kind hw "else".toList .kElse (by decide) (fun w => kwKind_else (pyLower w))]
  have hno : ¬(d ≤ 0) := by omega
  simp [hk, hno]

theorem fneAux_cons_else_ret {t : List Char} (hw : wfTok t = true)
    (hk : tokKind t = .kElse) (rest : List (List Char)) (pos : Nat) {d : Int}
    (hd : d ≤ 0) :
    fneAux (t :: rest) pos d = .ok (Int.ofNat pos) := by
  rw [fneAux]
  rw [is_stmt_eq_kind hw "if".toList .kIf (by decide) (fun w => kwKind_if (pyLower w)),
      is_stmt_eq_kind hw "endif".toList .kEndif (by decide) (fun w => kwKind_endif (pyLower w)),
      is_stmt_eq_kind hw "else".toList .kElse (by decide) (fun w => kwKind_else (pyLower w))]
  simp [hk, hd]

/-- Step lemmas for the `find_next_endif` scan. -/
theorem fnfAux_cons_other {t : List Char} (hw : wfTok t = true)
    (hk : tokKind t = .kOther) (rest : List (List Char)) (pos : Nat) (d : Int) :
    fnfAux (t :: rest) pos d = fnfAux rest (pos + 1) d := by
  rw [fnfAux]
  rw [is_stmt_eq_kind hw "if".toList .kIf (by decide) (fun w => kwKind_if (pyLower w)),
      is_stmt_eq_kind hw "endif".toList .kEndif (by decide) (fun w => kwKind_endif (pyLower w))]
  by_cases hd : d ≤ 0
  · simp [hk, hd]
  · simp [hk, hd]

theorem fnfAux_cons_else {t : List Char} (hw : wfTok t = true)
    (hk : tokKind t = .kElse) (rest : List (List Char)) (pos : Nat) (d : Int) :
    fnfAux (t :: rest) pos d = fnfAux rest (pos + 1) d := by
  rw [fnfAux]
  rw [is_stmt_eq_kind hw "if".toList .kIf (by decide) (fun w => kwKind_if (pyLower w)),
      is_stmt_eq_kind hw "endif".toList .kEndif (by decide) (fun w => kwKind_endif (pyLower w))]
  by_cases hd : d ≤ 0
  · simp [hk, hd]
  · simp [hk, hd]

theorem fnfAux_cons_if {t : List Char} (hw : wfTok t = true)
    (hk : tokKind t = .kIf) (rest : List (List Char)) (pos : Nat) {d : Int}
    (hd : 0 ≤ d) :
    fnfAux (t :: rest) pos d = fnfAux rest (pos + 1) (d + 1) := by
  rw [fnfAux]
  rw [is_stmt_eq_kind hw "if".toList .kIf (by decide) (fun w => kwKind_if (pyLower w)),
      is_stmt_eq_kind hw "endif".toList .kEndif (by decide) (fun w => kwKind_endif (pyLower w))]
  have hno : ¬(d + 1 ≤ 0) := by omega
  simp [hk, hno]

theorem fnfAux_cons_endif_pos {t : List Char} (hw : wfTok t = true)
    (hk : tokKind t = .kEndif) (rest : List (List Char)) (pos : Nat) {d : Int}
    (hd : 1 ≤ d) :
    fnfAux (t :: rest) pos d = fnfAux rest (pos + 1) (d - 1) := by
  rw [fnfAux]
  rw [is_stmt_eq_kind hw "if".toList .kIf (by decide) (fun w => kwKind_if (pyLower w)),
      is_stmt_eq_kind hw "endif".toList .kEndif (by decide) (fun w => kwKind_endif (pyLower w))]
  by_cases hz : d - 1 = 0
  · simp [hk, hz]
  · have hno : ¬(d - 1 ≤ 0) := by omega
    simp [hk, hz, hno]

theorem fnfAux_cons_endif_ret {t : List Char} (hw : wfTok t = true)
    (hk : tokKind t = .kEndif) (rest : List (List Char)) (pos : Nat) {d : Int}
    (hd : d ≤ 0) :
    fnfAux (t :: rest) pos d = .ok (Int.ofNat pos) := by
  rw [fnfAux]
  rw [is_stmt_eq_kind hw "if".toList .kIf (by decide) (fun w => kwKind_if (pyLower w)),
      is_stmt_eq_kind hw "endif".toList .kEndif (by decide) (fun w => kwKind_endif (pyLower w))]
  have hz : ¬(d - 1 = 0) := by omega
  have hle : d - 1 ≤ 0 := by omega
  simp [hk, hz, hle]

/-- Properly balanced windows of `if`/`else`/`endif` markers: any
interleaving of non-marker tokens and complete nested blocks (with or
without an `else` clause). -/
inductive Bal : List (List Char) → Prop
  | nil : Bal []
  | other {t : List Char} {rest : List (List Char)} :
      wfTok t = true → tokKind t = .kOther → Bal rest → Bal (t :: rest)
  | blockElse {ti te tn : List Char} {b1 b2 rest : List (List Char)} :
      wfTok ti = true → tokKind ti = .kIf →
      wfTok te = true → tokKind te = .kElse →
      wfTok tn = true → tokKind tn = .kEndif →
      Bal b1 → Bal b2 → Bal rest →
      Bal (ti :: (b1 ++ te :: (b2 ++ tn :: rest)))
  | blockNoElse {ti tn : List Char} {b rest : List (List Char)} :
      wfTok ti = true → tokKind ti = .kIf →
      wfTok tn = true → tokKind tn = .kEndif →
      Bal b → Bal rest →
      Bal (ti :: (b ++ tn :: rest))

/-- Rewriting the running position of a scan. -/
theorem fneAux_congr_pos (r : List (List Char)) (d : Int) {m n : Nat} (h : m = n) :
    fneAux r m d = fneAux r n d := by rw [h]

theorem fnfAux_congr_pos (r : List (List Char)) (d : Int) {m n : Nat} (h : m = n) :
    fnfAux r m d = fnfAux r n d := by rw [h]

/-- Scanning a balanced window from a nonnegative depth never fires the
`else` return and restores the depth. -/
theorem fneAux_skip {b : List (List Char)} (hb : Bal b) :
    ∀ (r : List (List Char)) (pos : Nat) (d : Int), 0 ≤ d →
      fneAux (b ++ r) pos d = fneAux r (pos + b.length) d := by
  induction hb with
  | nil => intro r pos d _; simp
  | other hw hk _ ih =>
    intro r pos d hd
    rw [List.cons_append, fneAux_cons_other hw hk, ih r (pos + 1) d hd]
    apply fneAux_congr_pos
    simp only [List.length_cons]
    omega
  | blockElse hwi hki hwe hke hwn hkn _ _ _ ih1 ih2 ih3 =>
    intro r pos d hd
    simp only [List.cons_append, List.append_assoc]
    rw [fneAux_cons_if hwi hki _ _ hd]
    rw [ih1 _ (pos + 1) (d + 1) (by omega)]
    rw [fneAux_cons_else_pos hwe hke _ _ (by omega)]
    rw [ih2 _ _ (d + 1) (by omega)]
    rw [fneAux_cons_endif hwn hkn]
    rw [show d + 1 - 1 = d from by omega]
    rw [ih3 _ _ d hd]
    apply fneAux_congr_pos
    simp only [List.length_cons, List.length_append]
    omega
  | blockNoElse hwi hki hwn hkn _ _ ih1 ih2 =>
    intro r pos d hd
    simp only [List.cons_append, List.append_assoc]
    rw [fneAux_cons_if hwi hki _ _ hd]
    rw [ih1 _ (pos + 1) (d + 1) (by omega)]
    rw [fneAux_cons_endif hwn hkn]
    rw [show d + 1 - 1 = d from by omega]
    rw [ih2 _ _ d hd]
    apply fneAux_congr_pos
    simp only [List.length_cons, List.length_append]
    omega

/-- Same skip property for the `endif` scan. -/
theorem fnfAux_skip {b : List (List Char)} (hb : Bal b) :
    ∀ (r : List (List Char)) (pos : Nat) (d : Int), 0 ≤ d →
      fnfAux (b ++ r) pos d = fnfAux r (pos + b.length) d := by
  induction hb with
  | nil => intro r pos d _; simp
  | other hw hk _ ih =>
    intro r pos d hd
    rw [List.cons_append, fnfAux_cons_other hw hk, ih r (pos + 1) d hd]
    apply fnfAux_congr_pos
    simp only [List.length_cons]
    omega
  | blockElse hwi hki hwe hke hwn hkn _ _ _ ih1 ih2 ih3 =>
    intro r pos d hd
    simp only [List.cons_append, List.append_assoc]
    rw [fnfAux_cons_if hwi hki _ _ hd]
    rw [ih1 _ (pos + 1) (d + 1) (by omega)]
    rw [fnfAux_cons_else hwe hke]
    rw [ih2 _ _ (d + 1) (by omega)]
    rw [fnfAux_cons_endif_pos hwn hkn _ _ (by omega)]
    rw [show d + 1 - 1 = d from by omega]
    rw [ih3 _ _ d hd]
    apply fnfAux_congr_pos
    simp only [List.length_cons, List.length_append]
    omega
  | blockNoElse hwi hki hwn hkn _ _ ih1 ih2 =>
    intro r pos d hd
    simp only [List.cons_append, List.append_assoc]
    rw [fnfAux_cons_if hwi hki _ _ hd]
    rw [ih1 _ (pos + 1) (d + 1) (by omega)]
    rw [fnfAux_cons_endif_pos hwn hkn _ _ (by omega)]
    rw [show d + 1 - 1 = d from by omega]
    rw [ih2 _ _ d hd]
    apply fnfAux_congr_pos
    simp only [List.length_cons, List.length_append]
    omega

/-- C1: in a properly balanced arrangement of nested `if`/`else`/`endif`
markers, with the scan starting immediately after the opening `if` (so the
window is `b1 ++ [else] ++ b2 ++ [endif] ++ …` with `b1`, `b2` balanced),
`find_next_else` returns the position of the `else` belonging to that
outermost unmatched `if` and `find_next_endif` the position of its `endif`,
however many complete sibling blocks occur in `b1` and `b2`. -/
theorem find_matchers_depth_correct (tokens : List (List Char)) (index : Nat)
    (b1 b2 rest : List (List Char)) (te tn : List Char)
    (hdrop : tokens.drop index = b1 ++ te :: (b2 ++ tn :: rest))
    (hb1 : Bal b1) (hb2 : Bal b2)
    (hwe : wfTok te = true) (hke : tokKind te = .kElse)
    (hwn : wfTok tn = true) (hkn : tokKind tn = .kEndif) :
    find_next_else tokens index = .ok (Int.ofNat (index + b1.length)) ∧
    find_next_endif tokens index =
      .ok (Int.ofNat (index + b1.length + 1 + b2.length)) := by
  constructor
  · unfold find_next_else
    rw [hdrop, fneAux_skip hb1 _ index 0 (by omega),
        fneAux_cons_else_ret hwe hke _ _ (by omega)]
  · unfold find_next_endif
    rw [hdrop, fnfAux_skip hb1 _ index 0 (by omega),
        fnfAux_cons_else hwe hke,
        fnfAux_skip hb2 _ _ 0 (by omega),
        fnfAux_cons_endif_ret hwn hkn _ _ (by omega)]

/-- Doctest tokens for the matcher witness (template.py lines 71-74). -/
def ifTok18 : List Char := statementStart ++ " if age >= 18 ".toList ++ statementEnd

def ifTok65 : List Char := statementStart ++ " if age >= 65 ".toList ++ statementEnd

def ifTok21 : List Char := statementStart ++ " if age >= 21 ".toList ++ statementEnd

def ifTokMoon : List Char := statementStart ++ "  if moon == \"full\" ".toList ++ statementEnd

def elseTokWide : List Char := statementStart ++ " else  ".toList ++ statementEnd

def elseTokTight : List Char := statementStart ++ " else".toList ++ statementEnd

def c1Tokens : List (List Char) :=
  [ ifTok18, ifTok65, "senior".toList, elseTok, endifTok,
    ifTok21, "can drink".toList, elseTok, endifTok,
    elseTokWide, ifTokMoon, "yup, full".toList, elseTokTight, endifTok, endifTok ]

theorem find_matchers_depth_correct_witness :
    find_next_else c1Tokens 1 = .ok 9 ∧ find_next_endif c1Tokens 1 = .ok 14 := by
  have hsen : Bal ["senior".toList] := Bal.other rfl rfl Bal.nil
  have hdrink : Bal ["can drink".toList] := Bal.other rfl rfl Bal.nil
  have hblk21 : Bal [ifTok21, "can drink".toList, elseTok, endifTok] :=
    @Bal.blockElse ifTok21 elseTok endifTok ["can drink".toList] [] []
      rfl rfl rfl rfl rfl rfl hdrink Bal.nil Bal.nil
  have hb1 : Bal [ifTok65, "senior".toList, elseTok, endifTok,
                  ifTok21, "can drink".toList, elseTok, endifTok] :=
    @Bal.blockElse ifTok65 elseTok endifTok ["senior".toList] []
      [ifTok21, "can drink".toList, elseTok, endifTok]
      rfl rfl rfl rfl rfl rfl hsen Bal.nil hblk21
  have hyup : Bal ["yup, full".toList, elseTokTight] :=
    Bal.other rfl rfl (Bal.other rfl rfl Bal.nil)
  have hb2 : Bal [ifTokMoon, "yup, full".toList, elseTokTight, endifTok] :=
    @Bal.blockNoElse ifTokMoon endifTok ["yup, full".toList, elseTokTight] []
      rfl rfl rfl rfl hyup Bal.nil
  exact find_matchers_depth_correct c1Tokens 1
    [ifTok65, "senior".toList, elseTok, endifTok,
     ifTok21, "can drink".toList, elseTok, endifTok]
    [ifTokMoon, "yup, full".toList, elseTokTight, endifTok] []
    elseTokWide endifTok rfl hb1 hb2 rfl rfl rfl rfl
